import Mathlib

/-!
Verification of the abi-to-sol code-generation core.

The development shallowly embeds the generator (`SolidityGenerator` and
`generateSolidity` from the source) together with the declaration
collector and the structural-signature computation it relies on.
JavaScript strings are modelled as Lean `String`s; the byte-position
based core string primitives are replaced by character-list equivalents
so that every definition evaluates inside the kernel.  JavaScript
`Array.prototype.join` is modelled by `joinStr`, and
`String.prototype.replace` with a plain-string search value (which
replaces only the first occurrence) by `replaceFirst`.
-/

namespace AbiToSol

/-- Model of JavaScript `String.prototype.startsWith` for plain strings. -/
def strStartsWith (s p : String) : Bool :=
  p.data.isPrefixOf s.data

/-- Drop the first `n` characters of a string (character based, so it
evaluates in the kernel). -/
def strDrop (s : String) (n : Nat) : String :=
  (s.data.drop n).asString

/-- Model of JavaScript `String.prototype.includes` for a one-character
needle, as used by the generator (`parameter.type.includes("[")`). -/
def strContainsChar (s : String) (c : Char) : Bool :=
  s.data.contains c

/-- Model of JavaScript `Array.prototype.join`: the separator is placed
between consecutive elements, and the empty array joins to `""`. -/
def joinStr (sep : String) : List String → String
  | [] => ""
  | [s] => s
  | s :: t :: rest => s ++ sep ++ joinStr sep (t :: rest)

/-- Replace the first occurrence of `pat` in a character list. -/
def replaceFirstChars (pat repl : List Char) : List Char → List Char
  | [] => []
  | c :: rest =>
    if pat.isPrefixOf (c :: rest) then repl ++ (c :: rest).drop pat.length
    else c :: replaceFirstChars pat repl rest

/-- Model of JavaScript `String.prototype.replace` with a plain-string
search value: only the first occurrence is replaced, and a string
without an occurrence is returned unchanged. -/
def replaceFirst (s pat repl : String) : String :=
  (replaceFirstChars pat.data repl.data s.data).asString

/-- ABI parameter node: a name, a declared type string, optional ordered
sub-components when the type is structured, and an optional `indexed`
flag used by event parameters.  Mirrors `Abi.Parameter` /
`Abi.EventParameter` as used by the source. -/
inductive Parameter where
  | mk : String → String → Option (List Parameter) → Option Bool → Parameter
deriving Repr

def Parameter.name : Parameter → String
  | .mk n _ _ _ => n

def Parameter.type : Parameter → String
  | .mk _ t _ _ => t

def Parameter.components : Parameter → Option (List Parameter)
  | .mk _ _ c _ => c

def Parameter.indexed : Parameter → Option Bool
  | .mk _ _ _ i => i

/-- State mutability values of the ABI grammar (`Abi.StateMutability`). -/
inductive StateMutability where
  | pure
  | view
  | nonpayable
  | payable
deriving Repr, DecidableEq

/-- The verbatim ABI token for a state-mutability value. -/
def StateMutability.toStr : StateMutability → String
  | .pure => "pure"
  | .view => "view"
  | .nonpayable => "nonpayable"
  | .payable => "payable"

/-- Top-level ABI entries, mirroring `Abi.Abi`'s entry kinds handled by
the generator's visitor. -/
inductive Entry where
  | functionEntry (name : String) (inputs : List Parameter)
      (outputs : List Parameter) (stateMutability : Option StateMutability)
  | constructorEntry (inputs : List Parameter)
      (stateMutability : Option StateMutability)
  | fallbackEntry (stateMutability : Option StateMutability)
  | receiveEntry (stateMutability : Option StateMutability)
  | eventEntry (name : String) (inputs : List Parameter)
      (anonymous : Option Bool)
deriving Repr

/-- An ABI document is an ordered list of entries. -/
abbrev Abi := List Entry

/-- The array suffix of a type string that begins with the structured
marker, e.g. `"[2][]"` for `"tuple[2][]"`. -/
def arraySuffix (ty : String) : String :=
  if strStartsWith ty "tuple" then strDrop ty 5 else ""

mutual
/-- Modelled from the spec: the structural-signature computation
(`Codec.AbiData.Utils.abiTypeSignature` from the external codec package,
whose source is not part of this repository).  A non-structured
parameter contributes its type string; a structured parameter
contributes the parenthesised comma-joined signatures of its components
followed by its own array suffix, so the signature depends on the
component type sequence only, recursively. -/
def abiTypeSignature : Parameter → String
  | .mk _ ty none _ => ty
  | .mk _ ty (some cs) _ => "(" ++ sigJoin cs ++ ")" ++ arraySuffix ty

/-- Comma-join of the signatures of a component list. -/
def sigJoin : List Parameter → String
  | [] => ""
  | [p] => abiTypeSignature p
  | p :: q :: ps => abiTypeSignature p ++ "," ++ sigJoin (q :: ps)
end

/-- Modelled from the spec: the canonical structural signature of a
structured parameter, computed from its immediate component sequence
(`Codec.AbiData.Utils.abiTupleSignature`). -/
def abiTupleSignature (cs : List Parameter) : String :=
  "(" ++ sigJoin cs ++ ")"

/-- The type shape of a parameter: its type string together with the
shapes of its components, with names and the indexed flag erased.  Two
parameters are structurally identical exactly when their shapes are
equal. -/
inductive Shape where
  | mk : String → Option (List Shape) → Shape
deriving Repr

mutual
/-- Erase names and metadata from a parameter, keeping its type shape. -/
def shapeOf : Parameter → Shape
  | .mk _ ty none _ => .mk ty none
  | .mk _ ty (some cs) _ => .mk ty (some (shapesOf cs))

/-- Shape images of a component list. -/
def shapesOf : List Parameter → List Shape
  | [] => []
  | p :: ps => shapeOf p :: shapesOf ps
end

mutual
/-- The structural signature determined by a shape alone. -/
def sigOfShape : Shape → String
  | .mk ty none => ty
  | .mk ty (some cs) => "(" ++ sigJoinShape cs ++ ")" ++ arraySuffix ty

/-- Comma-join of shape signatures. -/
def sigJoinShape : List Shape → String
  | [] => ""
  | [s] => sigOfShape s
  | s :: t :: rest => sigOfShape s ++ "," ++ sigJoinShape (t :: rest)
end

theorem shapesOf_eq_map : ∀ ps : List Parameter, shapesOf ps = ps.map shapeOf := by
  intro ps
  induction ps with
  | nil => simp [shapesOf]
  | cons p ps ih => simp [shapesOf, ih]

/-- The signature computation factors through the type shape: names and
other metadata cannot influence it. -/
theorem sig_factors_aux :
    ∀ n : Nat,
      (∀ p : Parameter, sizeOf p ≤ n → abiTypeSignature p = sigOfShape (shapeOf p)) ∧
      (∀ ps : List Parameter, sizeOf ps ≤ n → sigJoin ps = sigJoinShape (shapesOf ps)) := by
  intro n
  induction n with
  | zero =>
    constructor
    · intro p hp
      cases p with
      | mk a b c d => simp at hp
    · intro ps hps
      cases ps with
      | nil => simp [sigJoin, shapesOf, sigJoinShape]
      | cons p ps => simp at hps
  | succ n ih =>
    constructor
    · intro p hp
      cases p with
      | mk nm ty cso ix =>
        cases cso with
        | none => simp [abiTypeSignature, shapeOf, sigOfShape]
        | some cs =>
          have hcs : sizeOf cs ≤ n := by
            have := hp
            simp at this
            omega
          have hlist := ih.2 cs hcs
          simp [abiTypeSignature, shapeOf, sigOfShape, hlist]
    · intro ps hps
      cases ps with
      | nil => simp [sigJoin, shapesOf, sigJoinShape]
      | cons p ps =>
        have hp : sizeOf p ≤ n := by simp at hps; omega
        have hparam := ih.1 p hp
        cases ps with
        | nil => simp [sigJoin, shapesOf, sigJoinShape, hparam]
        | cons q qs =>
          have hqs : sizeOf (q :: qs) ≤ n := by simp at hps ⊢; omega
          have htail := ih.2 (q :: qs) hqs
          simp [shapesOf] at htail
          simp [sigJoin, shapesOf, sigJoinShape, hparam, htail]

theorem abiTypeSignature_factors (p : Parameter) :
    abiTypeSignature p = sigOfShape (shapeOf p) :=
  (sig_factors_aux (sizeOf p)).1 p (Nat.le_refl _)

theorem sigJoin_factors (ps : List Parameter) :
    sigJoin ps = sigJoinShape (shapesOf ps) :=
  (sig_factors_aux (sizeOf ps)).2 ps (Nat.le_refl _)

/-- Structurally identical component lists have equal tuple signatures. -/
theorem abiTupleSignature_of_shape_eq (cs1 cs2 : List Parameter)
    (h : cs1.map shapeOf = cs2.map shapeOf) :
    abiTupleSignature cs1 = abiTupleSignature cs2 := by
  unfold abiTupleSignature
  rw [sigJoin_factors, sigJoin_factors, shapesOf_eq_map, shapesOf_eq_map, h]

/-- A field of a collected declaration: the component's name and type,
together with the structural signature of the component itself when it
is structured (referencing another table entry). -/
structure Component where
  name : String
  type : String
  signature : Option String
deriving Repr

/-- A collected declaration: an optional inferred identifier and the
ordered list of member fields. -/
structure Declaration where
  identifier : Option String
  components : List Component
deriving Repr

/-- The declaration table, in insertion order: structural signature
paired with the declaration collected for it.  Models the plain
JavaScript object whose `Object.entries` order is insertion order. -/
abbrev Declarations := List (String × Declaration)

/-- The field recorded for one component of a structured parameter. -/
def componentOf : Parameter → Component
  | .mk nm ty cso _ => ⟨nm, ty, cso.map abiTupleSignature⟩

mutual
/-- Modelled from the spec: the declaration collector
(`collectDeclarations` from the repository's `declarations` module,
whose source file is not included).  A structured parameter first
recurses into its components, then inserts its own signature unless the
table already contains it; the implementation never infers a name, so
collected declarations carry no identifier.  Non-structured parameters
contribute nothing. -/
def collectFromParameter (table : Declarations) : Parameter → Declarations
  | .mk _ _ none _ => table
  | .mk _ _ (some cs) _ =>
    let t1 := collectFromParameters table cs
    if (t1.map Prod.fst).contains (abiTupleSignature cs) then t1
    else t1 ++ [(abiTupleSignature cs, ⟨none, cs.map componentOf⟩)]

/-- Left-to-right collection over a parameter list. -/
def collectFromParameters (table : Declarations) : List Parameter → Declarations
  | [] => table
  | p :: ps => collectFromParameters (collectFromParameter table p) ps
end

/-- Modelled from the spec: per-entry collection walks inputs before
outputs; fallback and receive entries carry no parameters. -/
def collectFromEntry (table : Declarations) : Entry → Declarations
  | .functionEntry _ ins outs _ => collectFromParameters (collectFromParameters table ins) outs
  | .constructorEntry ins _ => collectFromParameters table ins
  | .fallbackEntry _ => table
  | .receiveEntry _ => table
  | .eventEntry _ ins _ => collectFromParameters table ins

/-- Modelled from the spec: one left-to-right walk of the whole ABI
starting from the empty table. -/
def collectDeclarations (abi : Abi) : Declarations :=
  abi.foldl collectFromEntry []

mutual
/-- All structural signatures of structured parameters embedded in a
parameter, the parameter's own tuple signature first. -/
def sigsOfParameter : Parameter → List String
  | .mk _ _ none _ => []
  | .mk _ _ (some cs) _ => abiTupleSignature cs :: sigsOfParameters cs

/-- All structural signatures embedded in a parameter list. -/
def sigsOfParameters : List Parameter → List String
  | [] => []
  | p :: ps => sigsOfParameter p ++ sigsOfParameters ps
end

/-- All structural signatures of structured parameters of one entry. -/
def sigsOfEntry : Entry → List String
  | .functionEntry _ ins outs _ => sigsOfParameters ins ++ sigsOfParameters outs
  | .constructorEntry ins _ => sigsOfParameters ins
  | .fallbackEntry _ => []
  | .receiveEntry _ => []
  | .eventEntry _ ins _ => sigsOfParameters ins

/-- All structural signatures of structured parameters of an ABI. -/
def sigsOfAbi : Abi → List String
  | [] => []
  | e :: rest => sigsOfEntry e ++ sigsOfAbi rest

/-- Modelled from the spec: the fixed placeholder defaults of the
repository's `defaults` module (its source file is not included);
interface name, SPDX license and solidity version pragma string. -/
def defaultName : String := "MyInterface"

def defaultLicense : String := "UNLICENSED"

def defaultSolidityVersion : String := "^0.7.0"

/-- Property lookup in the generator's `identifiers` object, keyed by
structural signature.  A missing property reads as JavaScript
`undefined`, which the call sites below make explicit. -/
def lookupId (ids : List (String × String)) (sig : String) : Option String :=
  (ids.find? (fun e => e.1 == sig)).map Prod.snd

/-- The identifier-assignment loop of the `SolidityGenerator`
constructor: entries of the declaration table keep an inferred
identifier when present, and otherwise receive the synthetic identifier
built from the monotonically increasing counter. -/
def mkIdentifiersAux (index : Nat) : Declarations → List (String × String)
  | [] => []
  | (sig, d) :: rest =>
    match d.identifier with
    | some id => (sig, id) :: mkIdentifiersAux index rest
    | none => (sig, "S_" ++ Nat.repr index) :: mkIdentifiersAux (index + 1) rest

/-- Identifier table computed once per generation run, starting the
counter at zero. -/
def mkIdentifiers (ds : Declarations) : List (String × String) :=
  mkIdentifiersAux 0 ds

/-- `SolidityGenerator.generateType`: a parameter without components
renders its type string as-is; a structured parameter substitutes the
declaration identifier looked up by its tuple signature for the
structured marker.  A missing table entry reads as `undefined`, which
JavaScript string replacement coerces to the text `"undefined"`. -/
def generateType (ids : List (String × String)) : Parameter → String
  | .mk _ ty none _ => ty
  | .mk _ ty (some cs) _ =>
    replaceFirst ty "tuple" ((lookupId ids (abiTupleSignature cs)).getD "undefined")

/-- The parameter-modifier context installed by
`visitFunctionEntry` for both inputs and outputs. -/
def functionParameterModifiers (p : Parameter) : List String :=
  if strStartsWith p.type "tuple" || strContainsChar p.type '[' ||
      p.type == "bytes" || p.type == "string" then ["memory"]
  else []

/-- The parameter-modifier context installed by `visitEventEntry`. -/
def eventParameterModifiers (p : Parameter) : List String :=
  match p.indexed with
  | some true => ["indexed"]
  | _ => []

/-- `SolidityGenerator.visitParameter`: resolved type, the context's
modifiers, and the parameter name, space-joined. -/
def visitParameter (ids : List (String × String))
    (parameterModifiers : Parameter → List String) (p : Parameter) : String :=
  joinStr " " ([generateType ids p] ++ parameterModifiers p ++ [p.name])

/-- `SolidityGenerator.generateStateMutability`: the mutability token
verbatim when present and different from the default `nonpayable`,
empty otherwise. -/
def generateStateMutability : Option StateMutability → String
  | some m => if m = StateMutability.nonpayable then "" else m.toStr
  | none => ""

/-- `SolidityGenerator.visitFunctionEntry`.  The outer list is joined
with single spaces; the rendered input array is an element of that
list, so its parameters end up comma-joined (JavaScript array-to-string
conversion), while outputs are joined with a comma and a space inside
the returns clause. -/
def visitFunctionEntry (ids : List (String × String)) (name : String)
    (inputs outputs : List Parameter) (stateMutability : Option StateMutability) : String :=
  joinStr " " [
    "function " ++ name ++ "(",
    joinStr "," (inputs.map (visitParameter ids functionParameterModifiers)),
    ") external",
    generateStateMutability stateMutability,
    if outputs.length > 0 then
      joinStr "" ["returns (",
        joinStr ", " (outputs.map (visitParameter ids functionParameterModifiers)),
        ")"]
    else "",
    ";"]

/-- `SolidityGenerator.visitConstructorEntry`: interfaces have no
constructors, so the entry renders to the empty string. -/
def visitConstructorEntry (_inputs : List Parameter)
    (_stateMutability : Option StateMutability) : String :=
  ""

/-- `SolidityGenerator.visitFallbackEntry`. -/
def visitFallbackEntry (stateMutability : Option StateMutability) : String :=
  "fallback () external " ++
    (if stateMutability = some StateMutability.payable then "payable" else "") ++ ";"

/-- `SolidityGenerator.visitReceiveEntry`. -/
def visitReceiveEntry : String :=
  "receive () external payable;"

/-- `SolidityGenerator.visitEventEntry`; as in `visitFunctionEntry` the
rendered input array is comma-joined by array-to-string conversion. -/
def visitEventEntry (ids : List (String × String)) (name : String)
    (inputs : List Parameter) (anonymous : Option Bool) : String :=
  joinStr " " [
    "event " ++ name ++ "(",
    joinStr "," (inputs.map (visitParameter ids eventParameterModifiers)),
    ")",
    (if anonymous.getD false then "anonymous" else "") ++ ";"]

/-- The visitor dispatch over one top-level ABI entry (the repository's
`visitor` module routes a node to the handler for its kind). -/
def visitEntry (ids : List (String × String)) : Entry → String
  | .functionEntry nm ins outs sm => visitFunctionEntry ids nm ins outs sm
  | .constructorEntry ins sm => visitConstructorEntry ins sm
  | .fallbackEntry sm => visitFallbackEntry sm
  | .receiveEntry _ => visitReceiveEntry
  | .eventEntry nm ins anon => visitEventEntry ids nm ins anon

/-- `SolidityGenerator.generateHeader`. -/
def generateHeader (license solidityVersion : String) : String :=
  joinStr "\n" [
    "// SPDX-License-Identifier: " ++ license,
    "// !! THIS FILE WAS AUTOGENERATED BY abi-to-sol. SEE BELOW FOR SOURCE. !!",
    "pragma solidity " ++ solidityVersion ++ ";",
    "pragma experimental ABIEncoderV2;"]

/-- `SolidityGenerator.generateComponents`: each field renders as its
resolved type and name; a field with a (non-empty) stored signature has
the structured marker of its type replaced by the referenced
declaration's identifier. -/
def generateComponents (ids : List (String × String)) (d : Declaration) : String :=
  joinStr "\n" (d.components.map (fun c =>
    match c.signature with
    | none => c.type ++ " " ++ c.name ++ ";"
    | some sig =>
      if sig == "" then c.type ++ " " ++ c.name ++ ";"
      else replaceFirst c.type "tuple" ((lookupId ids sig).getD "undefined")
        ++ " " ++ c.name ++ ";"))

/-- `SolidityGenerator.generateDeclarations`: one struct declaration per
table entry, in insertion order, separated by blank lines. -/
def generateDeclarations (ids : List (String × String)) (ds : Declarations) : String :=
  joinStr "\n\n" (ds.map (fun e =>
    "struct " ++ ((lookupId ids e.1).getD "undefined") ++ " \x7b " ++
      generateComponents ids e.2 ++ " \x7d"))

/-- `SolidityGenerator.generateInterface`: the interface header line,
every entry's rendered text (empty or not) on its own line, and the
closing brace. -/
def generateInterface (ids : List (String × String)) (name : String) (abi : Abi) : String :=
  joinStr "\n" (["interface " ++ name ++ " \x7b"] ++ abi.map (visitEntry ids) ++ ["\x7d"])

/-- JSON values, as far as the serialization of an ABI needs them. -/
inductive Json where
  | str : String → Json
  | bool : Bool → Json
  | arr : List Json → Json
  | obj : List (String × Json) → Json
deriving Repr

/-- JSON string escaping for the two characters the serializer must
escape in ABI data (quote and backslash). -/
def escapeString (s : String) : String :=
  (s.data.foldr (fun c acc =>
    if c = '"' || c = '\\' then '\\' :: c :: acc else c :: acc) []).asString

mutual
/-- Compact rendering of a JSON value, modelling `JSON.stringify` with
no space argument. -/
def Json.render : Json → String
  | .str s => "\"" ++ escapeString s ++ "\""
  | .bool b => if b then "true" else "false"
  | .arr xs => "[" ++ renderElems xs ++ "]"
  | .obj fs => "\x7b" ++ renderFields fs ++ "\x7d"

/-- Comma-joined rendering of array elements. -/
def renderElems : List Json → String
  | [] => ""
  | [x] => Json.render x
  | x :: y :: rest => Json.render x ++ "," ++ renderElems (y :: rest)

/-- Comma-joined rendering of object fields. -/
def renderFields : List (String × Json) → String
  | [] => ""
  | [f] => "\"" ++ escapeString f.1 ++ "\":" ++ Json.render f.2
  | f :: g :: rest =>
    "\"" ++ escapeString f.1 ++ "\":" ++ Json.render f.2 ++ "," ++ renderFields (g :: rest)
end

mutual
/-- JSON serialization of a parameter, with the optional fields present
exactly when the parameter carries them (JavaScript `JSON.stringify`
omits `undefined` properties). -/
def paramToJson : Parameter → Json
  | .mk nm ty cso ix =>
    Json.obj ([("name", Json.str nm), ("type", Json.str ty)] ++
      (match cso with
       | none => []
       | some cs => [("components", Json.arr (paramsToJson cs))]) ++
      (match ix with
       | none => []
       | some b => [("indexed", Json.bool b)]))

/-- JSON serialization of a parameter list. -/
def paramsToJson : List Parameter → List Json
  | [] => []
  | p :: ps => paramToJson p :: paramsToJson ps
end

mutual
/-- Decoder for the parameter serialization above, structured over the
exact field layouts the serializer emits. -/
def paramFromJson : Json → Option Parameter
  | .obj [("name", .str nm), ("type", .str ty)] =>
    some (.mk nm ty none none)
  | .obj [("name", .str nm), ("type", .str ty), ("indexed", .bool b)] =>
    some (.mk nm ty none (some b))
  | .obj [("name", .str nm), ("type", .str ty), ("components", .arr xs)] =>
    (paramsFromJson xs).map (fun cs => .mk nm ty (some cs) none)
  | .obj [("name", .str nm), ("type", .str ty), ("components", .arr xs),
      ("indexed", .bool b)] =>
    (paramsFromJson xs).map (fun cs => .mk nm ty (some cs) (some b))
  | _ => none

/-- Decoder for a serialized parameter list. -/
def paramsFromJson : List Json → Option (List Parameter)
  | [] => some []
  | j :: js =>
    match paramFromJson j, paramsFromJson js with
    | some p, some ps => some (p :: ps)
    | _, _ => none
end

/-- Decoder for a state-mutability token. -/
def smFromString : String → Option StateMutability
  | "pure" => some .pure
  | "view" => some .view
  | "nonpayable" => some .nonpayable
  | "payable" => some .payable
  | _ => none

/-- Optional state-mutability field of an entry's serialization. -/
def smFields : Option StateMutability → List (String × Json)
  | none => []
  | some m => [("stateMutability", Json.str m.toStr)]

/-- Optional anonymous field of an event's serialization. -/
def anonFields : Option Bool → List (String × Json)
  | none => []
  | some b => [("anonymous", Json.bool b)]

/-- JSON serialization of a top-level ABI entry. -/
def entryToJson : Entry → Json
  | .functionEntry nm ins outs sm =>
    Json.obj ([("type", Json.str "function"), ("name", Json.str nm),
      ("inputs", Json.arr (paramsToJson ins)),
      ("outputs", Json.arr (paramsToJson outs))] ++ smFields sm)
  | .constructorEntry ins sm =>
    Json.obj ([("type", Json.str "constructor"),
      ("inputs", Json.arr (paramsToJson ins))] ++ smFields sm)
  | .fallbackEntry sm =>
    Json.obj ([("type", Json.str "fallback")] ++ smFields sm)
  | .receiveEntry sm =>
    Json.obj ([("type", Json.str "receive")] ++ smFields sm)
  | .eventEntry nm ins anon =>
    Json.obj ([("type", Json.str "event"), ("name", Json.str nm),
      ("inputs", Json.arr (paramsToJson ins))] ++ anonFields anon)

/-- Decoder for the entry serialization above. -/
def entryFromJson : Json → Option Entry
  | .obj [("type", .str "function"), ("name", .str nm), ("inputs", .arr is),
      ("outputs", .arr os)] =>
    match paramsFromJson is, paramsFromJson os with
    | some a, some b => some (.functionEntry nm a b none)
    | _, _ => none
  | .obj [("type", .str "function"), ("name", .str nm), ("inputs", .arr is),
      ("outputs", .arr os), ("stateMutability", .str s)] =>
    match paramsFromJson is, paramsFromJson os, smFromString s with
    | some a, some b, some m => some (.functionEntry nm a b (some m))
    | _, _, _ => none
  | .obj [("type", .str "constructor"), ("inputs", .arr is)] =>
    (paramsFromJson is).map (fun a => .constructorEntry a none)
  | .obj [("type", .str "constructor"), ("inputs", .arr is),
      ("stateMutability", .str s)] =>
    match paramsFromJson is, smFromString s with
    | some a, some m => some (.constructorEntry a (some m))
    | _, _ => none
  | .obj [("type", .str "fallback")] => some (.fallbackEntry none)
  | .obj [("type", .str "fallback"), ("stateMutability", .str s)] =>
    (smFromString s).map (fun m => .fallbackEntry (some m))
  | .obj [("type", .str "receive")] => some (.receiveEntry none)
  | .obj [("type", .str "receive"), ("stateMutability", .str s)] =>
    (smFromString s).map (fun m => .receiveEntry (some m))
  | .obj [("type", .str "event"), ("name", .str nm), ("inputs", .arr is)] =>
    (paramsFromJson is).map (fun a => .eventEntry nm a none)
  | .obj [("type", .str "event"), ("name", .str nm), ("inputs", .arr is),
      ("anonymous", .bool b)] =>
    (paramsFromJson is).map (fun a => .eventEntry nm a (some b))
  | _ => none

/-- JSON serialization of a whole ABI. -/
def abiToJson (abi : Abi) : Json :=
  Json.arr (abi.map entryToJson)

/-- Decoder for a serialized entry list. -/
def entriesFromJson : List Json → Option (List Entry)
  | [] => some []
  | j :: js =>
    match entryFromJson j, entriesFromJson js with
    | some e, some es => some (e :: es)
    | _, _ => none

/-- Decoder for a whole serialized ABI. -/
def abiFromJson : Json → Option Abi
  | .arr es => entriesFromJson es
  | _ => none

/-- `SolidityGenerator.generateAutogeneratedNotice`: the provenance
footer embedding the ABI's JSON serialization inside a trailing block
comment. -/
def generateAutogeneratedNotice (abi : Abi) : String :=
  joinStr "\n" [
    "",
    "// THIS FILE WAS AUTOGENERATED FROM THE FOLLOWING ABI JSON:",
    "/*",
    Json.render (abiToJson abi),
    "*/"]

/-- `SolidityGenerator.visitAbi`: header, declarations block, interface
body and provenance footer, separated by blank lines; identifiers are
assigned once from the declaration table, as in the generator's
constructor. -/
def visitAbi (name license solidityVersion : String) (ds : Declarations) (abi : Abi) : String :=
  let ids := mkIdentifiers ds
  joinStr "\n\n" [
    generateHeader license solidityVersion,
    generateDeclarations ids ds,
    generateInterface ids name abi,
    generateAutogeneratedNotice abi]

/-- Options accepted by `generateSolidity`; every field is optional as
in the source, and the defaults are applied inside the generator. -/
structure GenerateSolidityOptions where
  name : Option String
  solidityVersion : Option String
  license : Option String
  prettier : Option Bool
deriving Repr

/-- The text produced by the generation pipeline before the optional
formatting pass: collect declarations, then visit the ABI. -/
def generatedText (opts : GenerateSolidityOptions) (abi : Abi) : String :=
  visitAbi (opts.name.getD defaultName) (opts.license.getD defaultLicense)
    (opts.solidityVersion.getD defaultSolidityVersion) (collectDeclarations abi) abi

/-- `generateSolidity`.  The external formatter is modelled as a
function that either returns formatted text or throws; when the
`prettier` option is falsy the generated text is returned without
consulting the formatter, and when the formatter throws the unformatted
text is returned unchanged. -/
def generateSolidity (fmt : String → Except String String)
    (opts : GenerateSolidityOptions) (abi : Abi) : String :=
  let generated := generatedText opts abi
  if opts.prettier.getD false = false then generated
  else
    match fmt generated with
    | Except.ok formatted => formatted
    | Except.error _ => generated

/-! Decimal representation: the synthetic identifiers are `"S_" ++ Nat.repr i`,
so uniqueness of identifiers reduces to injectivity of `Nat.repr`, proved
here by evaluating the digit string back to the number. -/

/-- Numeric value of a decimal digit character. -/
def digitVal (c : Char) : Nat := c.toNat - 48

/-- Value of a most-significant-first digit string. -/
def valChars (l : List Char) : Nat :=
  l.foldl (fun x c => x * 10 + digitVal c) 0

theorem foldl_digits_init (l : List Char) :
    ∀ a : Nat, l.foldl (fun x c => x * 10 + digitVal c) a
      = a * 10 ^ l.length + valChars l := by
  induction l with
  | nil => intro a; simp [valChars]
  | cons c l ih =>
    intro a
    have h1 : List.foldl (fun x c => x * 10 + digitVal c) a (c :: l)
        = List.foldl (fun x c => x * 10 + digitVal c) (a * 10 + digitVal c) l := rfl
    have h2 : valChars (c :: l)
        = List.foldl (fun x c => x * 10 + digitVal c) (0 * 10 + digitVal c) l := rfl
    rw [h1, h2, ih (a * 10 + digitVal c), ih (0 * 10 + digitVal c)]
    simp [List.length_cons, pow_succ]
    ring

theorem valChars_concat (l : List Char) (c : Char) :
    valChars (l ++ [c]) = valChars l * 10 + digitVal c := by
  simp [valChars, List.foldl_append]

theorem digitVal_digitChar (m : Nat) (h : m < 10) :
    digitVal (Nat.digitChar m) = m := by
  interval_cases m <;> rfl

theorem toDigitsCore_shift :
    ∀ fuel n ds, Nat.toDigitsCore 10 fuel n ds = Nat.toDigitsCore 10 fuel n [] ++ ds := by
  intro fuel
  induction fuel with
  | zero => intro n ds; simp [Nat.toDigitsCore]
  | succ fuel ih =>
    intro n ds
    by_cases h : n / 10 = 0
    · simp [Nat.toDigitsCore, h]
    · simp only [Nat.toDigitsCore, h, if_false]
      rw [ih (n / 10) (Nat.digitChar (n % 10) :: ds), ih (n / 10) [Nat.digitChar (n % 10)]]
      simp

theorem valChars_toDigitsCore :
    ∀ fuel n, n < fuel → valChars (Nat.toDigitsCore 10 fuel n []) = n := by
  intro fuel
  induction fuel with
  | zero => intro n h; omega
  | succ fuel ih =>
    intro n h
    by_cases h0 : n / 10 = 0
    · have hn : n < 10 := by omega
      simp [Nat.toDigitsCore, h0, valChars, digitVal_digitChar (n % 10) (Nat.mod_lt _ (by omega))]
      omega
    · have hn : 0 < n := by
        rcases Nat.eq_zero_or_pos n with h1 | h1
        · rw [h1] at h0; simp at h0
        · exact h1
      have hdiv : n / 10 < n := Nat.div_lt_self hn (by omega)
      have hfuel : n / 10 < fuel := by omega
      simp only [Nat.toDigitsCore, h0, if_false]
      rw [toDigitsCore_shift fuel (n / 10) [Nat.digitChar (n % 10)]]
      rw [valChars_concat, ih (n / 10) hfuel,
        digitVal_digitChar (n % 10) (Nat.mod_lt _ (by omega))]
      omega

theorem natRepr_injective : Function.Injective Nat.repr := by
  intro m n h
  have hd : Nat.toDigitsCore 10 (m + 1) m [] = Nat.toDigitsCore 10 (n + 1) n [] := by
    simpa [Nat.repr, Nat.toDigits, List.asString] using congrArg String.data h
  have hm := valChars_toDigitsCore (m + 1) m (Nat.lt_succ_self m)
  have hn := valChars_toDigitsCore (n + 1) n (Nat.lt_succ_self n)
  rw [← hm, ← hn, hd]

theorem synthetic_identifier_injective :
    Function.Injective (fun k : Nat => "S_" ++ Nat.repr k) := by
  intro a b h
  apply natRepr_injective
  have := congrArg String.data h
  simp only [String.data_append] at this
  apply String.ext
  exact List.append_cancel_left this

/-! Behaviour of the constructor's identifier-assignment loop. -/

theorem mkIdentifiersAux_keys :
    ∀ (t : Declarations) (i : Nat),
      (mkIdentifiersAux i t).map Prod.fst = t.map Prod.fst := by
  intro t
  induction t with
  | nil => intro i; simp [mkIdentifiersAux]
  | cons e rest ih =>
    intro i
    obtain ⟨sig, d⟩ := e
    cases hid : d.identifier with
    | some id => simp [mkIdentifiersAux, hid, ih]
    | none => simp [mkIdentifiersAux, hid, ih]

theorem mkIdentifiersAux_allNone :
    ∀ (t : Declarations) (i : Nat),
      (∀ d ∈ t, (Prod.snd d).identifier = none) →
      (mkIdentifiersAux i t).map Prod.snd
        = (List.range t.length).map (fun k => "S_" ++ Nat.repr (i + k)) := by
  intro t
  induction t with
  | nil => intro i _; simp [mkIdentifiersAux]
  | cons e rest ih =>
    intro i hnone
    obtain ⟨sig, d⟩ := e
    have hd : d.identifier = none := hnone (sig, d) (List.mem_cons_self _ _)
    have hrest : ∀ d ∈ rest, (Prod.snd d).identifier = none := by
      intro x hx; exact hnone x (List.mem_cons_of_mem _ hx)
    simp only [mkIdentifiersAux, hd, List.map_cons, List.length_cons]
    rw [ih (i + 1) hrest, List.range_succ_eq_map]
    simp only [List.map_cons, List.map_map, Nat.add_zero]
    congr 1
    apply List.map_congr_left
    intro k _
    have hik : i + 1 + k = i + (k + 1) := by omega
    simp [Function.comp, hik]

/-! Invariants of the declaration collector: the table only grows by
appending, collected declarations never carry an inferred identifier,
signature keys stay pairwise distinct, and every structural signature
occurring in the walked ABI ends up in the table. -/

theorem collect_props_aux :
    ∀ n : Nat,
      (∀ p : Parameter, sizeOf p ≤ n → ∀ table : Declarations,
        (∃ new, collectFromParameter table p = table ++ new ∧
            ∀ d ∈ new, (Prod.snd d).identifier = none) ∧
        ((table.map Prod.fst).Nodup → ((collectFromParameter table p).map Prod.fst).Nodup) ∧
        (∀ sig ∈ sigsOfParameter p, sig ∈ (collectFromParameter table p).map Prod.fst)) ∧
      (∀ ps : List Parameter, sizeOf ps ≤ n → ∀ table : Declarations,
        (∃ new, collectFromParameters table ps = table ++ new ∧
            ∀ d ∈ new, (Prod.snd d).identifier = none) ∧
        ((table.map Prod.fst).Nodup → ((collectFromParameters table ps).map Prod.fst).Nodup) ∧
        (∀ sig ∈ sigsOfParameters ps, sig ∈ (collectFromParameters table ps).map Prod.fst)) := by
  intro n
  induction n with
  | zero =>
    constructor
    · intro p hp; cases p with | mk a b c d => simp at hp
    · intro ps hps; cases ps with
      | nil =>
        intro table
        refine ⟨⟨[], by simp [collectFromParameters], by simp⟩, ?_, ?_⟩
        · intro h; simpa [collectFromParameters] using h
        · intro sig hsig; simp [sigsOfParameters] at hsig
      | cons p ps => simp at hps
  | succ n ih =>
    constructor
    · intro p hp table
      cases p with
      | mk nm ty cso ix =>
        cases cso with
        | none =>
          refine ⟨⟨[], by simp [collectFromParameter], by simp⟩, ?_, ?_⟩
          · intro h; simpa [collectFromParameter] using h
          · intro sig hsig; simp [sigsOfParameter] at hsig
        | some cs =>
          have hcs : sizeOf cs ≤ n := by simp at hp; omega
          obtain ⟨⟨new1, heq1, hnone1⟩, hnd1, hcmp1⟩ := (ih.2 cs hcs) table
          by_cases hmem :
              abiTupleSignature cs ∈ (collectFromParameters table cs).map Prod.fst
          · have hex : ∃ x, (abiTupleSignature cs, x) ∈ collectFromParameters table cs := by
              obtain ⟨pair, hpair, hfst⟩ := List.mem_map.mp hmem
              exact ⟨pair.2, by rw [← hfst]; exact hpair⟩
            have hres : collectFromParameter table (.mk nm ty (some cs) ix)
                = collectFromParameters table cs := by
              simp [collectFromParameter, hex]
            refine ⟨⟨new1, by rw [hres, heq1], hnone1⟩, ?_, ?_⟩
            · intro h; rw [hres]; exact hnd1 h
            · intro sig hsig
              rw [hres]
              simp only [sigsOfParameter] at hsig
              rcases List.mem_cons.mp hsig with h | h
              · subst h; exact hmem
              · exact hcmp1 sig h
          · have hnex : ∀ x, (abiTupleSignature cs, x) ∉ collectFromParameters table cs := by
              intro x hx
              exact hmem (List.mem_map.mpr ⟨(abiTupleSignature cs, x), hx, rfl⟩)
            have hres : collectFromParameter table (.mk nm ty (some cs) ix)
                = collectFromParameters table cs ++
                  [(abiTupleSignature cs, ⟨none, cs.map componentOf⟩)] := by
              simp [collectFromParameter, hnex]
            refine ⟨⟨new1 ++ [(abiTupleSignature cs, ⟨none, cs.map componentOf⟩)], ?_, ?_⟩, ?_, ?_⟩
            · rw [hres, heq1, List.append_assoc]
            · intro d hd
              rcases List.mem_append.mp hd with h | h
              · exact hnone1 d h
              · simp at h; rw [h]
            · intro h
              rw [hres]
              have hnd := hnd1 h
              simp only [List.map_append, List.map_cons, List.map_nil]
              rw [List.nodup_append]
              exact ⟨hnd, List.nodup_singleton _, by
                intro a ha hb
                simp at hb
                rw [hb] at ha
                exact hmem ha⟩
            · intro sig hsig
              rw [hres]
              simp only [sigsOfParameter] at hsig
              simp only [List.map_append, List.map_cons, List.map_nil]
              rcases List.mem_cons.mp hsig with h | h
              · subst h; exact List.mem_append_right _ (by simp)
              · exact List.mem_append_left _ (hcmp1 sig h)
    · intro ps hps table
      cases ps with
      | nil =>
        refine ⟨⟨[], by simp [collectFromParameters], by simp⟩, ?_, ?_⟩
        · intro h; simpa [collectFromParameters] using h
        · intro sig hsig; simp [sigsOfParameters] at hsig
      | cons p rest =>
        have hp : sizeOf p ≤ n := by simp at hps; omega
        have hrest : sizeOf rest ≤ n := by simp at hps; omega
        obtain ⟨⟨new1, heq1, hnone1⟩, hnd1, hcmp1⟩ := (ih.1 p hp) table
        obtain ⟨⟨new2, heq2, hnone2⟩, hnd2, hcmp2⟩ :=
          (ih.2 rest hrest) (collectFromParameter table p)
        have hres : collectFromParameters table (p :: rest)
            = collectFromParameters (collectFromParameter table p) rest := by
          simp [collectFromParameters]
        refine ⟨⟨new1 ++ new2, ?_, ?_⟩, ?_, ?_⟩
        · rw [hres, heq2, heq1, List.append_assoc]
        · intro d hd
          rcases List.mem_append.mp hd with h | h
          · exact hnone1 d h
          · exact hnone2 d h
        · intro h
          rw [hres]
          exact hnd2 (hnd1 h)
        · intro sig hsig
          rw [hres]
          simp only [sigsOfParameters] at hsig
          rcases List.mem_append.mp hsig with h | h
          · have hmem := hcmp1 sig h
            rw [heq2, List.map_append]
            exact List.mem_append_left _ hmem
          · exact hcmp2 sig h

theorem collectFromParameters_props (ps : List Parameter) (table : Declarations) :
    (∃ new, collectFromParameters table ps = table ++ new ∧
        ∀ d ∈ new, (Prod.snd d).identifier = none) ∧
    ((table.map Prod.fst).Nodup → ((collectFromParameters table ps).map Prod.fst).Nodup) ∧
    (∀ sig ∈ sigsOfParameters ps, sig ∈ (collectFromParameters table ps).map Prod.fst) :=
  ((collect_props_aux (sizeOf ps)).2 ps (Nat.le_refl _)) table

theorem collectFromEntry_props (e : Entry) (table : Declarations) :
    (∃ new, collectFromEntry table e = table ++ new ∧
        ∀ d ∈ new, (Prod.snd d).identifier = none) ∧
    ((table.map Prod.fst).Nodup → ((collectFromEntry table e).map Prod.fst).Nodup) ∧
    (∀ sig ∈ sigsOfEntry e, sig ∈ (collectFromEntry table e).map Prod.fst) := by
  cases e with
  | functionEntry nm ins outs sm =>
    obtain ⟨⟨new1, heq1, hnone1⟩, hnd1, hcmp1⟩ := collectFromParameters_props ins table
    obtain ⟨⟨new2, heq2, hnone2⟩, hnd2, hcmp2⟩ :=
      collectFromParameters_props outs (collectFromParameters table ins)
    have hres : collectFromEntry table (.functionEntry nm ins outs sm)
        = collectFromParameters (collectFromParameters table ins) outs := rfl
    refine ⟨⟨new1 ++ new2, ?_, ?_⟩, ?_, ?_⟩
    · rw [hres, heq2, heq1, List.append_assoc]
    · intro d hd
      rcases List.mem_append.mp hd with h | h
      · exact hnone1 d h
      · exact hnone2 d h
    · intro h; rw [hres]; exact hnd2 (hnd1 h)
    · intro sig hsig
      rw [hres]
      simp only [sigsOfEntry] at hsig
      rcases List.mem_append.mp hsig with h | h
      · have hmem := hcmp1 sig h
        rw [heq2, List.map_append]
        exact List.mem_append_left _ hmem
      · exact hcmp2 sig h
  | constructorEntry ins sm =>
    obtain ⟨⟨new1, heq1, hnone1⟩, hnd1, hcmp1⟩ := collectFromParameters_props ins table
    exact ⟨⟨new1, heq1, hnone1⟩, hnd1, fun sig hsig => hcmp1 sig hsig⟩
  | fallbackEntry sm =>
    refine ⟨⟨[], by simp [collectFromEntry], by simp⟩, ?_, ?_⟩
    · intro h; simpa [collectFromEntry] using h
    · intro sig hsig; simp [sigsOfEntry] at hsig
  | receiveEntry sm =>
    refine ⟨⟨[], by simp [collectFromEntry], by simp⟩, ?_, ?_⟩
    · intro h; simpa [collectFromEntry] using h
    · intro sig hsig; simp [sigsOfEntry] at hsig
  | eventEntry nm ins anon =>
    obtain ⟨⟨new1, heq1, hnone1⟩, hnd1, hcmp1⟩ := collectFromParameters_props ins table
    exact ⟨⟨new1, heq1, hnone1⟩, hnd1, fun sig hsig => hcmp1 sig hsig⟩

theorem collectAbi_aux :
    ∀ (abi : Abi) (table : Declarations),
      (∃ new, List.foldl collectFromEntry table abi = table ++ new ∧
          ∀ d ∈ new, (Prod.snd d).identifier = none) ∧
      ((table.map Prod.fst).Nodup →
        ((List.foldl collectFromEntry table abi).map Prod.fst).Nodup) ∧
      (∀ sig ∈ sigsOfAbi abi, sig ∈ (List.foldl collectFromEntry table abi).map Prod.fst) := by
  intro abi
  induction abi with
  | nil =>
    intro table
    refine ⟨⟨[], by simp, by simp⟩, ?_, ?_⟩
    · intro h; simpa using h
    · intro sig hsig; simp [sigsOfAbi] at hsig
  | cons e rest ih =>
    intro table
    obtain ⟨⟨new1, heq1, hnone1⟩, hnd1, hcmp1⟩ := collectFromEntry_props e table
    obtain ⟨⟨new2, heq2, hnone2⟩, hnd2, hcmp2⟩ := ih (collectFromEntry table e)
    have hres : List.foldl collectFromEntry table (e :: rest)
        = List.foldl collectFromEntry (collectFromEntry table e) rest := rfl
    refine ⟨⟨new1 ++ new2, ?_, ?_⟩, ?_, ?_⟩
    · rw [hres, heq2, heq1, List.append_assoc]
    · intro d hd
      rcases List.mem_append.mp hd with h | h
      · exact hnone1 d h
      · exact hnone2 d h
    · intro h; rw [hres]; exact hnd2 (hnd1 h)
    · intro sig hsig
      rw [hres]
      simp only [sigsOfAbi] at hsig
      rcases List.mem_append.mp hsig with h | h
      · have hmem := hcmp1 sig h
        rw [heq2, List.map_append]
        exact List.mem_append_left _ hmem
      · exact hcmp2 sig h

theorem collectDeclarations_props (abi : Abi) :
    (∀ d ∈ collectDeclarations abi, (Prod.snd d).identifier = none) ∧
    ((collectDeclarations abi).map Prod.fst).Nodup ∧
    (∀ sig ∈ sigsOfAbi abi, sig ∈ (collectDeclarations abi).map Prod.fst) := by
  obtain ⟨⟨new, heq, hnone⟩, hnd, hcmp⟩ := collectAbi_aux abi []
  have heq' : collectDeclarations abi = new := by
    simpa [collectDeclarations] using heq
  refine ⟨?_, ?_, ?_⟩
  · intro d hd; rw [heq'] at hd; exact hnone d hd
  · exact hnd (by simp)
  · exact hcmp

/-! Round trip of the ABI serialization embedded in the provenance
footer. -/

theorem param_roundtrip_aux :
    ∀ n : Nat,
      (∀ p : Parameter, sizeOf p ≤ n → paramFromJson (paramToJson p) = some p) ∧
      (∀ ps : List Parameter, sizeOf ps ≤ n →
        paramsFromJson (paramsToJson ps) = some ps) := by
  intro n
  induction n with
  | zero =>
    constructor
    · intro p hp; cases p with | mk a b c d => simp at hp
    · intro ps hps
      cases ps with
      | nil => simp [paramsToJson, paramsFromJson]
      | cons p ps => simp at hps
  | succ n ih =>
    constructor
    · intro p hp
      cases p with
      | mk nm ty cso ix =>
        cases cso with
        | none =>
          cases ix with
          | none => simp [paramToJson, paramFromJson]
          | some b => simp [paramToJson, paramFromJson]
        | some cs =>
          have hcs : sizeOf cs ≤ n := by simp at hp; omega
          have hlist := ih.2 cs hcs
          cases ix with
          | none => simp [paramToJson, paramFromJson, hlist]
          | some b => simp [paramToJson, paramFromJson, hlist]
    · intro ps hps
      cases ps with
      | nil => simp [paramsToJson, paramsFromJson]
      | cons p rest =>
        have hp : sizeOf p ≤ n := by simp at hps; omega
        have hrest : sizeOf rest ≤ n := by simp at hps; omega
        simp [paramsToJson, paramsFromJson, ih.1 p hp, ih.2 rest hrest]

theorem params_roundtrip (ps : List Parameter) :
    paramsFromJson (paramsToJson ps) = some ps :=
  (param_roundtrip_aux (sizeOf ps)).2 ps (Nat.le_refl _)

theorem smFromString_toStr (m : StateMutability) :
    smFromString (StateMutability.toStr m) = some m := by
  cases m <;> rfl

set_option maxHeartbeats 2000000 in
theorem entry_roundtrip (e : Entry) : entryFromJson (entryToJson e) = some e := by
  cases e with
  | functionEntry nm ins outs sm =>
    cases sm with
    | none => simp [entryToJson, entryFromJson, smFields, params_roundtrip]
    | some m =>
      simp [entryToJson, entryFromJson, smFields, params_roundtrip, smFromString_toStr]
  | constructorEntry ins sm =>
    cases sm with
    | none => simp [entryToJson, entryFromJson, smFields, params_roundtrip]
    | some m =>
      simp [entryToJson, entryFromJson, smFields, params_roundtrip, smFromString_toStr]
  | fallbackEntry sm =>
    cases sm with
    | none => simp [entryToJson, entryFromJson, smFields]
    | some m => simp [entryToJson, entryFromJson, smFields, smFromString_toStr]
  | receiveEntry sm =>
    cases sm with
    | none => simp [entryToJson, entryFromJson, smFields]
    | some m => simp [entryToJson, entryFromJson, smFields, smFromString_toStr]
  | eventEntry nm ins anon =>
    cases anon with
    | none => simp [entryToJson, entryFromJson, anonFields, params_roundtrip]
    | some b => simp [entryToJson, entryFromJson, anonFields, params_roundtrip]

theorem abi_roundtrip (abi : Abi) : abiFromJson (abiToJson abi) = some abi := by
  have h : entriesFromJson (abi.map entryToJson) = some abi := by
    induction abi with
    | nil => simp [entriesFromJson]
    | cons e rest ih => simp [entriesFromJson, entry_roundtrip, ih]
  simpa [abiToJson, abiFromJson] using h

/-! Example fixtures used by the witnesses. -/

/-- Components of a first example tuple parameter. -/
def exInputA : List Parameter :=
  [.mk "a" "uint256" none none, .mk "b" "address" none none]

/-- Components of a structurally identical tuple under different field
names. -/
def exInputB : List Parameter :=
  [.mk "x" "uint256" none none, .mk "y" "address" none none]

/-- An ABI using the two structurally identical tuples in different
functions. -/
def exAbi : Abi :=
  [.functionEntry "f" [.mk "s" "tuple" (some exInputA) none] [] (some .view),
   .functionEntry "g" [.mk "t" "tuple" (some exInputB) none] [] none]

/-- Options with every field defaulted. -/
def exOptions : GenerateSolidityOptions := ⟨none, none, none, none⟩

/-- Options with the formatting pass enabled. -/
def exOptionsFmt : GenerateSolidityOptions := ⟨none, none, none, some true⟩

/-- A formatter that always throws. -/
def exFmtFail : String → Except String String := fun _ => Except.error "boom"

/-- A formatter that always rewrites its input. -/
def exFmtOk : String → Except String String := fun s => Except.ok (s ++ "\n")

/-- C1: structurally identical tuple parameters (equal component shape
sequences) have equal structural signatures, the declaration table holds
exactly one entry for that signature (when the tuple occurs in the ABI),
both resolve to the same declaration identifier, and rendering either
parameter with a common outer type string produces identical text. -/
theorem structurally_identical_tuples_share_declaration
    (abi : Abi) (cs1 cs2 : List Parameter)
    (hshape : cs1.map shapeOf = cs2.map shapeOf)
    (hocc : abiTupleSignature cs1 ∈ sigsOfAbi abi) :
    abiTupleSignature cs1 = abiTupleSignature cs2 ∧
    ((collectDeclarations abi).map Prod.fst).count (abiTupleSignature cs1) = 1 ∧
    (lookupId (mkIdentifiers (collectDeclarations abi)) (abiTupleSignature cs1)).isSome = true ∧
    lookupId (mkIdentifiers (collectDeclarations abi)) (abiTupleSignature cs1)
      = lookupId (mkIdentifiers (collectDeclarations abi)) (abiTupleSignature cs2) ∧
    (∀ (ids : List (String × String)) (nm1 nm2 ty : String) (ix1 ix2 : Option Bool),
      generateType ids (.mk nm1 ty (some cs1) ix1)
        = generateType ids (.mk nm2 ty (some cs2) ix2)) := by
  have hsig := abiTupleSignature_of_shape_eq cs1 cs2 hshape
  obtain ⟨hnone, hnd, hcmp⟩ := collectDeclarations_props abi
  have hmem := hcmp _ hocc
  refine ⟨hsig, List.count_eq_one_of_mem hnd hmem, ?_, by rw [hsig], ?_⟩
  · have hkeys := mkIdentifiersAux_keys (collectDeclarations abi) 0
    have hmem2 : abiTupleSignature cs1
        ∈ (mkIdentifiers (collectDeclarations abi)).map Prod.fst := by
      show abiTupleSignature cs1 ∈ (mkIdentifiersAux 0 (collectDeclarations abi)).map Prod.fst
      rw [hkeys]; exact hmem
    obtain ⟨pair, hpair, hfst⟩ := List.mem_map.mp hmem2
    have hfind : ((mkIdentifiers (collectDeclarations abi)).find?
        (fun e => e.1 == abiTupleSignature cs1)).isSome := by
      rw [List.find?_isSome]
      exact ⟨pair, hpair, by simp [hfst]⟩
    simpa [lookupId] using hfind
  · intro ids nm1 nm2 ty ix1 ix2
    simp [generateType, hsig]

/-- Concrete application of the dedup theorem: two tuples with the same
component types under different field names, used in two different
functions, share one table entry and one identifier. -/
theorem structurally_identical_tuples_share_declaration_witness :
    (exInputA.map shapeOf = exInputB.map shapeOf) ∧
    (abiTupleSignature exInputA ∈ sigsOfAbi exAbi) ∧
    (abiTupleSignature exInputA = abiTupleSignature exInputB ∧
     ((collectDeclarations exAbi).map Prod.fst).count (abiTupleSignature exInputA) = 1 ∧
     (lookupId (mkIdentifiers (collectDeclarations exAbi)) (abiTupleSignature exInputA)).isSome = true ∧
     lookupId (mkIdentifiers (collectDeclarations exAbi)) (abiTupleSignature exInputA)
       = lookupId (mkIdentifiers (collectDeclarations exAbi)) (abiTupleSignature exInputB) ∧
     (∀ (ids : List (String × String)) (nm1 nm2 ty : String) (ix1 ix2 : Option Bool),
       generateType ids (.mk nm1 ty (some exInputA) ix1)
         = generateType ids (.mk nm2 ty (some exInputB) ix2))) :=
  ⟨rfl, by decide,
    structurally_identical_tuples_share_declaration exAbi exInputA exInputB rfl (by decide)⟩

/-- C2: the identifiers assigned at construction keep the table's keys
in order; since the collector never infers a name, every entry receives
the synthetic identifier of its insertion index, and the assigned
identifiers are pairwise distinct. -/
theorem identifier_assignment_unique (abi : Abi) :
    (mkIdentifiers (collectDeclarations abi)).map Prod.fst
        = (collectDeclarations abi).map Prod.fst ∧
    (mkIdentifiers (collectDeclarations abi)).map Prod.snd
        = (List.range (collectDeclarations abi).length).map (fun k => "S_" ++ Nat.repr k) ∧
    ((mkIdentifiers (collectDeclarations abi)).map Prod.snd).Nodup := by
  obtain ⟨hnone, _, _⟩ := collectDeclarations_props abi
  have hvals := mkIdentifiersAux_allNone (collectDeclarations abi) 0 hnone
  have hvals' : (mkIdentifiers (collectDeclarations abi)).map Prod.snd
      = (List.range (collectDeclarations abi).length).map (fun k => "S_" ++ Nat.repr k) := by
    simpa [mkIdentifiers] using hvals
  refine ⟨mkIdentifiersAux_keys _ 0, hvals', ?_⟩
  rw [hvals']
  exact (List.nodup_range _).map synthetic_identifier_injective

/-- C3: the rendered function signature embeds the result of the
mutability rendering between spaces, and that rendering is empty exactly
when the mutability is absent or the default `nonpayable`, and the
verbatim token otherwise. -/
theorem mutability_keyword_rendering (ids : List (String × String)) (nm : String)
    (ins outs : List Parameter) (sm : Option StateMutability) :
    (∃ a b, visitFunctionEntry ids nm ins outs sm
        = a ++ (" " ++ generateStateMutability sm ++ " ") ++ b) ∧
    (generateStateMutability sm = "" ↔ sm = none ∨ sm = some StateMutability.nonpayable) ∧
    (∀ m, sm = some m → m ≠ StateMutability.nonpayable →
      generateStateMutability sm = StateMutability.toStr m) := by
  refine ⟨?_, ?_, ?_⟩
  · refine ⟨"function " ++ nm ++ "(" ++ " " ++
      joinStr "," (ins.map (visitParameter ids functionParameterModifiers)) ++ " " ++
      ") external",
      (if outs.length > 0 then
        joinStr "" ["returns (",
          joinStr ", " (outs.map (visitParameter ids functionParameterModifiers)), ")"]
      else "") ++ " " ++ ";", ?_⟩
    simp only [visitFunctionEntry, joinStr, String.append_assoc]
  · cases sm with
    | none => simp [generateStateMutability]
    | some m => cases m <;> simp [generateStateMutability, StateMutability.toStr]
  · intro m hm hne
    subst hm
    simp [generateStateMutability, hne]

/-- Concrete application of the mutability theorem at `view` and at the
defaults. -/
theorem mutability_keyword_rendering_witness :
    ((some StateMutability.view : Option StateMutability) = some StateMutability.view) ∧
    (StateMutability.view ≠ StateMutability.nonpayable) ∧
    generateStateMutability (some StateMutability.view)
      = StateMutability.toStr StateMutability.view ∧
    (∃ a b, visitFunctionEntry [] "f" [] [] (some StateMutability.view)
        = a ++ (" " ++ generateStateMutability (some StateMutability.view) ++ " ") ++ b) ∧
    (generateStateMutability (some StateMutability.nonpayable) = "" ↔
      (some StateMutability.nonpayable : Option StateMutability) = none ∨
      (some StateMutability.nonpayable : Option StateMutability)
        = some StateMutability.nonpayable) :=
  have hv := mutability_keyword_rendering [] "f" [] [] (some StateMutability.view)
  have hn := mutability_keyword_rendering [] "f" [] [] (some StateMutability.nonpayable)
  ⟨rfl, by decide, hv.2.2 _ rfl (by decide), hv.1, hn.2.1⟩

/-- C4: a function input or output receives exactly the `memory`
location qualifier when its type is tuple-based, an array, `bytes` or
`string`, and no modifier otherwise; an event input receives exactly the
`indexed` keyword when its indexed flag is set; neither context ever
produces the other context's modifier. -/
theorem parameter_modifier_rules (ids : List (String × String)) (p : Parameter) :
    (visitParameter ids functionParameterModifiers p =
      if strStartsWith p.type "tuple" || strContainsChar p.type '[' ||
          p.type == "bytes" || p.type == "string"
      then generateType ids p ++ " " ++ "memory" ++ " " ++ p.name
      else generateType ids p ++ " " ++ p.name) ∧
    (visitParameter ids eventParameterModifiers p =
      if p.indexed = some true
      then generateType ids p ++ " " ++ "indexed" ++ " " ++ p.name
      else generateType ids p ++ " " ++ p.name) ∧
    "indexed" ∉ functionParameterModifiers p ∧
    "memory" ∉ eventParameterModifiers p := by
  refine ⟨?_, ?_, ?_, ?_⟩
  · by_cases h : (strStartsWith p.type "tuple" || strContainsChar p.type '[' ||
        p.type == "bytes" || p.type == "string") = true
    · have hm : functionParameterModifiers p = ["memory"] := by
        simp [functionParameterModifiers, h]
      rw [if_pos h]
      simp only [visitParameter, hm, joinStr, List.cons_append, List.nil_append,
        List.append_nil, String.append_assoc]
    · have hm : functionParameterModifiers p = [] := by
        simp [functionParameterModifiers, h]
      rw [if_neg h]
      simp only [visitParameter, hm, joinStr, List.cons_append, List.nil_append,
        List.append_nil, String.append_assoc]
  · cases hix : p.indexed with
    | none =>
      have hm : eventParameterModifiers p = [] := by simp [eventParameterModifiers, hix]
      rw [if_neg (by decide)]
      simp only [visitParameter, hm, joinStr, List.cons_append, List.nil_append,
        List.append_nil, String.append_assoc]
    | some b =>
      cases b with
      | true =>
        have hm : eventParameterModifiers p = ["indexed"] := by
          simp [eventParameterModifiers, hix]
        rw [if_pos rfl]
        simp only [visitParameter, hm, joinStr, List.cons_append, List.nil_append,
          List.append_nil, String.append_assoc]
      | false =>
        have hm : eventParameterModifiers p = [] := by simp [eventParameterModifiers, hix]
        rw [if_neg (by decide)]
        simp only [visitParameter, hm, joinStr, List.cons_append, List.nil_append,
          List.append_nil, String.append_assoc]
  · by_cases h : (strStartsWith p.type "tuple" || strContainsChar p.type '[' ||
        p.type == "bytes" || p.type == "string") = true
    · simp [functionParameterModifiers, h]
    · simp [functionParameterModifiers, h]
  · cases hix : p.indexed with
    | none => simp [eventParameterModifiers, hix]
    | some b => cases b <;> simp [eventParameterModifiers, hix]

/-- Concrete applications of the modifier rules: a dynamic array input
gets `memory`, a fixed-width numeric input gets no qualifier, and an
indexed event input gets `indexed`. -/
theorem parameter_modifier_rules_witness :
    visitParameter [] functionParameterModifiers (Parameter.mk "xs" "uint256[]" none none)
      = "uint256[] memory xs" ∧
    visitParameter [] functionParameterModifiers (Parameter.mk "n" "uint8" none none)
      = "uint8 n" ∧
    visitParameter [] eventParameterModifiers (Parameter.mk "from" "address" none (some true))
      = "address indexed from" :=
  ⟨((parameter_modifier_rules [] (Parameter.mk "xs" "uint256[]" none none)).1).trans (by decide),
   ((parameter_modifier_rules [] (Parameter.mk "n" "uint8" none none)).1).trans (by decide),
   ((parameter_modifier_rules [] (Parameter.mk "from" "address" none (some true))).2.1).trans
     (by decide)⟩

/-- C5 (amended): a constructor entry renders to the empty string and
contributes no member text, but the interface body joins the rendered
text of every entry — empty or not — on its own line, so a consumed
constructor leaves exactly one empty line at its position between
`interface <Name> {` and `}`. -/
theorem constructor_renders_blank_line (ids : List (String × String)) (nm : String)
    (ins : List Parameter) (sm : Option StateMutability) (pre post : List Entry) :
    visitEntry ids (.constructorEntry ins sm) = "" ∧
    generateInterface ids nm (pre ++ .constructorEntry ins sm :: post)
      = joinStr "\n" (["interface " ++ nm ++ " \x7b"] ++
          (pre.map (visitEntry ids) ++ [""] ++ post.map (visitEntry ids)) ++ ["\x7d"]) := by
  refine ⟨rfl, ?_⟩
  simp [generateInterface, visitEntry, visitConstructorEntry]

/-- Counterexample to C5 as stated: on an ABI holding only a constructor
the body is not the brace lines alone — the consumed constructor leaves
a blank line between them. -/
theorem constructor_residue_counterexample :
    visitEntry [] (.constructorEntry [] none) = "" ∧
    generateInterface [] "MyInterface" [.constructorEntry [] none]
      = "interface MyInterface \x7b\n\n\x7d" ∧
    generateInterface [] "MyInterface" [.constructorEntry [] none]
      ≠ joinStr "\n" ["interface MyInterface \x7b", "\x7d"] :=
  ⟨rfl, by decide, by decide⟩

/-- C6 (amended): a structured parameter whose signature has no matching
declaration-table entry at render time does not fail fatally; JavaScript
string replacement coerces the missing property to the text
`"undefined"`, which is substituted for the structured marker. -/
theorem missing_declaration_rendering (ids : List (String × String))
    (nm ty : String) (cs : List Parameter) (ix : Option Bool)
    (h : lookupId ids (abiTupleSignature cs) = none) :
    generateType ids (.mk nm ty (some cs) ix) = replaceFirst ty "tuple" "undefined" := by
  simp [generateType, h]

/-- Concrete application of the missing-entry rendering theorem. -/
theorem missing_declaration_rendering_witness :
    lookupId [] (abiTupleSignature [Parameter.mk "a" "uint256" none none]) = none ∧
    generateType [] (.mk "x" "tuple" (some [Parameter.mk "a" "uint256" none none]) none)
      = replaceFirst "tuple" "tuple" "undefined" :=
  ⟨rfl, missing_declaration_rendering [] "x" "tuple"
    [Parameter.mk "a" "uint256" none none] none rfl⟩

/-- Counterexample to C6 as stated: rendering a tuple parameter against
an empty declaration table silently produces output text containing the
bogus type name `undefined` instead of failing. -/
theorem unresolved_reference_counterexample :
    generateType [] (.mk "x" "tuple" (some [Parameter.mk "a" "uint256" none none]) none)
      = "undefined" ∧
    visitParameter [] functionParameterModifiers
        (.mk "x" "tuple" (some [Parameter.mk "a" "uint256" none none]) none)
      = "undefined memory x" :=
  ⟨by decide, by decide⟩

/-- C7: with the formatting option off the generated text is returned
independently of the formatter, and when the formatter throws on the
generated text the unformatted text is returned unchanged. -/
theorem formatting_best_effort (fmt : String → Except String String)
    (opts : GenerateSolidityOptions) (abi : Abi) :
    (opts.prettier.getD false = false →
      generateSolidity fmt opts abi = generatedText opts abi) ∧
    (∀ e, fmt (generatedText opts abi) = Except.error e →
      generateSolidity fmt opts abi = generatedText opts abi) := by
  constructor
  · intro h; simp [generateSolidity, h]
  · intro e he
    by_cases h : opts.prettier.getD false = false
    · simp [generateSolidity, h]
    · simp [generateSolidity, h, he]

/-- Concrete application of the formatting-fallback theorem with a
formatter that always throws. -/
theorem formatting_best_effort_witness :
    exFmtFail (generatedText exOptionsFmt exAbi) = Except.error "boom" ∧
    generateSolidity exFmtFail exOptionsFmt exAbi = generatedText exOptionsFmt exAbi ∧
    (exOptions.prettier.getD false = false ∧
     generateSolidity exFmtFail exOptions exAbi = generatedText exOptions exAbi) :=
  ⟨rfl, (formatting_best_effort exFmtFail exOptionsFmt exAbi).2 "boom" rfl,
   rfl, (formatting_best_effort exFmtFail exOptions exAbi).1 rfl⟩

/-- C8: with the formatting pass disabled the output of
`generateSolidity` is the pure generated text, so it is identical across
invocations and independent of the formatter environment. -/
theorem generation_deterministic (fmt1 fmt2 : String → Except String String)
    (opts : GenerateSolidityOptions) (abi : Abi)
    (h : opts.prettier.getD false = false) :
    generateSolidity fmt1 opts abi = generateSolidity fmt2 opts abi ∧
    generateSolidity fmt1 opts abi = generatedText opts abi := by
  constructor <;> simp [generateSolidity, h]

/-- Concrete application of the determinism theorem with two different
formatter environments. -/
theorem generation_deterministic_witness :
    exOptions.prettier.getD false = false ∧
    generateSolidity exFmtFail exOptions exAbi = generateSolidity exFmtOk exOptions exAbi :=
  ⟨rfl, (generation_deterministic exFmtFail exFmtOk exOptions exAbi rfl).1⟩

/-- C9: the generated output ends with the provenance footer embedding
the ABI's JSON serialization inside a block comment, and decoding that
serialization yields an ABI structurally equal to the input. -/
theorem provenance_footer_roundtrip (nm lic ver : String) (ds : Declarations) (abi : Abi) :
    (∃ a, visitAbi nm lic ver ds abi
        = a ++ ("/*" ++ "\n" ++ Json.render (abiToJson abi) ++ "\n" ++ "*/")) ∧
    abiFromJson (abiToJson abi) = some abi := by
  refine ⟨?_, abi_roundtrip abi⟩
  refine ⟨generateHeader lic ver ++ "\n\n" ++
    generateDeclarations (mkIdentifiers ds) ds ++ "\n\n" ++
    generateInterface (mkIdentifiers ds) nm abi ++ "\n\n" ++
    ("" ++ "\n" ++ "// THIS FILE WAS AUTOGENERATED FROM THE FOLLOWING ABI JSON:" ++ "\n"), ?_⟩
  simp only [visitAbi, generateAutogeneratedNotice, joinStr, String.append_assoc]

/-- C10: the header consists of the license marker, the autogenerated
warning, the solidity version pragma and the experimental pragma, and
the full output unconditionally contains the line
`pragma experimental ABIEncoderV2;` for every ABI and declaration
table. -/
theorem experimental_pragma_unconditional (nm lic ver : String) (ds : Declarations) (abi : Abi) :
    generateHeader lic ver
      = ("// SPDX-License-Identifier: " ++ lic) ++ "\n" ++
        "// !! THIS FILE WAS AUTOGENERATED BY abi-to-sol. SEE BELOW FOR SOURCE. !!" ++ "\n" ++
        ("pragma solidity " ++ ver ++ ";") ++ "\n" ++
        "pragma experimental ABIEncoderV2;" ∧
    ∃ a b, visitAbi nm lic ver ds abi
        = a ++ "pragma experimental ABIEncoderV2;" ++ b := by
  constructor
  · simp only [generateHeader, joinStr, String.append_assoc]
  · refine ⟨("// SPDX-License-Identifier: " ++ lic) ++ "\n" ++
      "// !! THIS FILE WAS AUTOGENERATED BY abi-to-sol. SEE BELOW FOR SOURCE. !!" ++ "\n" ++
      ("pragma solidity " ++ ver ++ ";") ++ "\n",
      "\n\n" ++ (generateDeclarations (mkIdentifiers ds) ds ++ ("\n\n" ++
        (generateInterface (mkIdentifiers ds) nm abi ++ ("\n\n" ++
          generateAutogeneratedNotice abi)))), ?_⟩
    simp only [visitAbi, generateHeader, joinStr, String.append_assoc]

end AbiToSol
